import Mathlib

set_option autoImplicit false

/-!
Verification development for the Neon-Pacman simulation core
(src/components/GameCanvas.tsx, src/constants.ts, src/types.ts).

Continuous pixel coordinates are embedded as rationals; JavaScript
`Math.floor` is `Rat.floor`, the truncating `%` operator is `jsMod`, and
every comparison `Math.hypot(dx, dy) < r` is embedded as the equivalent
squared comparison `dx^2 + dy^2 < r^2` (hypot is monotone and `r > 0`).
The `setTimeout` / `clearTimeout` pair is embedded by a list of pending
timer ids plus the `frightenedTimerRef` handle; firing a pending timer
runs the scheduled callback body.
-/

namespace Pac

/-- Tile grid: rows of characters, as decoded from the level strings. -/
abbrev Grid := List (List Char)

def mkGrid (rows : List String) : Grid := rows.map String.toList

inductive Direction where
  | UP | DOWN | LEFT | RIGHT | NONE
deriving DecidableEq

inductive GhostMode where
  | SCATTER | CHASE | FRIGHTENED | EATEN
deriving DecidableEq

structure Point where
  x : ℚ
  y : ℚ
deriving DecidableEq

structure Entity where
  x : ℚ
  y : ℚ
  dir : Direction
  nextDir : Direction
  speed : ℚ
deriving DecidableEq

structure Ghost extends Entity where
  color : String
  mode : GhostMode
  id : ℕ
deriving DecidableEq

def TILE_SIZE : ℚ := 24
def PACMAN_SPEED : ℚ := 3
def GHOST_SPEED : ℚ := 2
def FRIGHTENED_SPEED : ℚ := 1.5

def GHOST_COLORS : List String := ["#ef4444", "#ec4899", "#06b6d4", "#f97316"]

def gridWidth (grid : Grid) : ℕ := (grid.headD []).length

/-- JavaScript indexing `grid[r][c]`: `none` models `undefined`. -/
def charAt (grid : Grid) (r c : ℤ) : Option Char :=
  if r < 0 ∨ c < 0 then none
  else (grid.get? r.toNat).bind (fun row => row.get? c.toNat)

/-- `isWalkable(c, r, includeGate)` from GameCanvas.tsx. A missing character
(non-rectangular row shorter than `grid[0]`) is walkable, as in the source
where `undefined` fails both character comparisons. -/
def isWalkable (grid : Grid) (c r : ℤ) (includeGate : Bool) : Bool :=
  if r < 0 ∨ (grid.length : ℤ) ≤ r ∨ c < 0 ∨ (gridWidth grid : ℤ) ≤ c then false
  else
    match charAt grid r c with
    | some '#' => false
    | some '-' => includeGate
    | _ => true

/-- JavaScript truncating division used by the `%` operator. -/
def jsTrunc (q : ℚ) : ℤ := if 0 ≤ q then Rat.floor q else -Rat.floor (-q)

/-- JavaScript `a % b` (sign follows the dividend). -/
def jsMod (a b : ℚ) : ℚ := a - b * (jsTrunc (a / b) : ℚ)

/-- `getGridPos = (p) => Math.floor(p / TILE_SIZE)`. -/
def getGridPos (p : ℚ) : ℤ := Rat.floor (p / TILE_SIZE)

/-- `isCentered = (val) => Math.abs(val % TILE_SIZE - TILE_SIZE / 2) < 2`. -/
def isCentered (v : ℚ) : Bool := decide (|jsMod v TILE_SIZE - TILE_SIZE / 2| < 2)

/-- The canonical center of grid cell `n` along one axis. -/
def tileCenter (n : ℤ) : ℚ := (n : ℚ) * TILE_SIZE + TILE_SIZE / 2

def dirDC : Direction → ℤ
  | .LEFT => -1
  | .RIGHT => 1
  | _ => 0

def dirDR : Direction → ℤ
  | .UP => -1
  | .DOWN => 1
  | _ => 0

def nextColOf (x : ℚ) (d : Direction) : ℤ := getGridPos x + dirDC d

def nextRowOf (y : ℚ) (d : Direction) : ℤ := getGridPos y + dirDR d

/-- `canMove(x, y, dir, isGhost)`: a step past the first/last column is
always permitted (tunneling), otherwise the target tile must be walkable. -/
def canMove (grid : Grid) (x y : ℚ) (dir : Direction) (isGhost : Bool) : Bool :=
  if nextColOf x dir < 0 ∨ (gridWidth grid : ℤ) ≤ nextColOf x dir then true
  else isWalkable grid (nextColOf x dir) (nextRowOf y dir) isGhost

/-- First block of `moveEntity`: adopt the buffered direction when centered
and the requested tile is enterable, snapping to the grid center. -/
def turnStep (grid : Grid) (e : Entity) (isGhost : Bool) : Entity :=
  if e.nextDir ≠ Direction.NONE ∧ isCentered e.x = true ∧ isCentered e.y = true then
    if canMove grid e.x e.y e.nextDir isGhost = true then
      { e with dir := e.nextDir, nextDir := Direction.NONE,
               x := tileCenter (getGridPos e.x), y := tileCenter (getGridPos e.y) }
    else e
  else e

/-- The four positional update statements of `moveEntity`. -/
def applyMove (e : Entity) (sp : ℚ) : Entity :=
  match e.dir with
  | .UP => { e with y := e.y - sp }
  | .DOWN => { e with y := e.y + sp }
  | .LEFT => { e with x := e.x - sp }
  | .RIGHT => { e with x := e.x + sp }
  | .NONE => e

/-- The two tunnel-wrap statements at the end of `moveEntity`. -/
def wrapStep (w : ℕ) (e : Entity) : Entity :=
  let mapWidth : ℚ := (w : ℚ) * TILE_SIZE
  let e1 := if e.x < -(TILE_SIZE / 2) then { e with x := mapWidth + TILE_SIZE / 2 } else e
  if mapWidth + TILE_SIZE / 2 < e1.x then { e1 with x := -(TILE_SIZE / 2) } else e1

/-- `moveEntity(entity, isGhost)`; `frightened` records
`(entity as Ghost).mode === 'FRIGHTENED'` for the speed override. -/
def moveEntity (grid : Grid) (e0 : Entity) (isGhost frightened : Bool) : Entity :=
  let e := turnStep grid e0 isGhost
  if e.dir = Direction.NONE then e
  else if isCentered e.x = true ∧ isCentered e.y = true ∧
          canMove grid e.x e.y e.dir isGhost = false then e
  else
    let sp := if isGhost = true ∧ frightened = true then FRIGHTENED_SPEED else e.speed
    wrapStep (gridWidth grid) (applyMove e sp)

def opposite : Direction → Direction
  | .UP => .DOWN
  | .DOWN => .UP
  | .LEFT => .RIGHT
  | .RIGHT => .LEFT
  | .NONE => .NONE

def moveGhost (grid : Grid) (g : Ghost) : Ghost :=
  { g with toEntity := moveEntity grid g.toEntity true (decide (g.mode = GhostMode.FRIGHTENED)) }

/-- Squared distance from the tile one step in direction `d` to the player;
the source compares `Math.hypot` values, whose order agrees with these. -/
def distKey (g : Ghost) (pac : Entity) (d : Direction) : ℚ :=
  (g.x + (dirDC d : ℚ) * TILE_SIZE - pac.x) ^ 2 + (g.y + (dirDR d : ℚ) * TILE_SIZE - pac.y) ^ 2

def insertByKey (k : Direction → ℚ) (d : Direction) : List Direction → List Direction
  | [] => [d]
  | e :: es => if k d < k e then d :: e :: es else e :: insertByKey k d es

/-- Stable sort by ascending key, as `Array.prototype.sort` with the
`adist - bdist` comparator orders the candidate headings. -/
def sortByKey (k : Direction → ℚ) : List Direction → List Direction
  | [] => []
  | d :: ds => insertByKey k d (sortByKey k ds)

def validDirs (grid : Grid) (g : Ghost) : List Direction :=
  [Direction.UP, Direction.DOWN, Direction.LEFT, Direction.RIGHT].filter
    (fun d => canMove grid g.x g.y d true)

/-- The per-ghost heading decision inside `updateGhosts`. The random draws
are a parameter: `rnd.1` is `Math.random() > 0.3` (chase sorting), `rnd.2.1`
is `Math.random() < 0.2` (scatter override), and `rnd.2.2` selects the
random index (`Math.floor(Math.random() * length)` hits exactly the indices
`rnd.2.2 % length` ranges over). -/
def decideDir (grid : Grid) (pac : Entity) (g : Ghost) (rnd : Bool × Bool × ℕ) : Direction :=
  if isCentered g.x = true ∧ isCentered g.y = true then
    let nonRev := (validDirs grid g).filter (fun d => decide (d ≠ opposite g.dir))
    let choices := if 0 < nonRev.length then nonRev else validDirs grid g
    let choices2 :=
      if g.mode = GhostMode.CHASE ∧ rnd.1 = true then sortByKey (distKey g pac) choices
      else choices
    if 0 < choices2.length then
      if 1 < choices2.length ∧ rnd.2.1 = true then
        choices2.getD (rnd.2.2 % choices2.length) Direction.NONE
      else choices2.headD Direction.NONE
    else opposite g.dir
  else g.dir

def updateGhost (grid : Grid) (pac : Entity) (rnd : Bool × Bool × ℕ) (g : Ghost) : Ghost :=
  moveGhost grid { g with dir := decideDir grid pac g rnd }

def updateGhostsAux (grid : Grid) (pac : Entity) (rnd : ℕ → Bool × Bool × ℕ) :
    ℕ → List Ghost → List Ghost
  | _, [] => []
  | i, g :: gs => updateGhost grid pac (rnd i) g :: updateGhostsAux grid pac rnd (i + 1) gs

def updateGhosts (grid : Grid) (pac : Entity) (rnd : ℕ → Bool × Bool × ℕ)
    (gs : List Ghost) : List Ghost :=
  updateGhostsAux grid pac rnd 0 gs

/-- Host callbacks: `onScoreUpdate`, `onLivesUpdate`, `onGameOver`. -/
inductive Ev where
  | scoreUpdate (n : ℕ)
  | livesUpdate (n : ℤ)
  | gameOver (won : Bool)
deriving DecidableEq

/-- The mutable refs of GameCanvas gathered into one record. -/
structure GState where
  pacman : Entity
  ghosts : List Ghost
  pellets : List Point
  powerPellets : List Point
  walls : List Point
  gate : Option Point
  score : ℕ
  lives : ℤ
  frightTimer : Option ℕ
  pendingTimers : List ℕ
  nextTimerId : ℕ
deriving DecidableEq

/-- `Math.hypot(x1 - x2, y1 - y2) < r`, via the equivalent squared form. -/
def hypotLt (x1 y1 x2 y2 r : ℚ) : Bool := decide ((x1 - x2) ^ 2 + (y1 - y2) ^ 2 < r ^ 2)

/-- The pellet filter of `checkCollisions`: surviving pellets, score gained,
and the `eaten` flag. -/
def eatPellets (px py : ℚ) : List Point → List Point × ℕ × Bool
  | [] => ([], 0, false)
  | p :: ps =>
    let rest := eatPellets px py ps
    if hypotLt p.x p.y px py (TILE_SIZE / 2) = true then (rest.1, rest.2.1 + 10, true)
    else (p :: rest.1, rest.2.1, rest.2.2)

/-- `if (frightenedTimerRef.current) clearTimeout(...)`: a handle is truthy
when it is a nonzero number. -/
def clearIfTruthy : Option ℕ → List ℕ → List ℕ
  | none, pend => pend
  | some tid, pend => if tid = 0 then pend else pend.filter (fun t => decide (t ≠ tid))

/-- One element of the power-pellet filter: on a hit add 50, frighten every
ghost and (re)start the frighten timer, else keep the pellet. -/
def powerStep (px py : ℚ) (acc : GState × List Point × Bool) (p : Point) :
    GState × List Point × Bool :=
  let s := acc.1
  if hypotLt p.x p.y px py (TILE_SIZE / 2) = true then
    ({ s with score := s.score + 50,
              ghosts := s.ghosts.map (fun g => { g with mode := GhostMode.FRIGHTENED }),
              pendingTimers := clearIfTruthy s.frightTimer s.pendingTimers ++ [s.nextTimerId],
              frightTimer := some s.nextTimerId,
              nextTimerId := s.nextTimerId + 1 },
     acc.2.1, true)
  else (s, acc.2.1 ++ [p], acc.2.2)

/-- The consumption part of `checkCollisions` (pellets then power pellets);
the Bool is the `eaten` flag. -/
def consumptionPhase (px py : ℚ) (s : GState) : GState × Bool :=
  let r := eatPellets px py s.pellets
  let s1 := { s with pellets := r.1, score := s.score + r.2.1 }
  let a := s1.powerPellets.foldl (powerStep px py) (s1, [], r.2.2)
  ({ a.1 with powerPellets := a.2.1 }, a.2.2)

/-- The accumulator the power-pellet filter of `consumptionPhase` starts
from: the state after the pellet filter, an empty kept list, and the eaten
flag so far. -/
def consInit (px py : ℚ) (s : GState) : GState × List Point × Bool :=
  ({ s with pellets := (eatPellets px py s.pellets).1,
            score := s.score + (eatPellets px py s.pellets).2.1 }, [],
   (eatPellets px py s.pellets).2.2)

/-- Row-major traversal of the grid, as the nested `forEach` loops. -/
def rowMajor (grid : Grid) : List (ℕ × ℕ × Char) :=
  grid.enum.flatMap (fun rc => rc.2.enum.map (fun cc => (rc.1, cc.1, cc.2)))

def cellCenter (r c : ℕ) : Point :=
  { x := (c : ℚ) * TILE_SIZE + TILE_SIZE / 2, y := (r : ℚ) * TILE_SIZE + TILE_SIZE / 2 }

def scanPellets (grid : Grid) : List Point :=
  (rowMajor grid).filterMap (fun t => if t.2.2 = '.' then some (cellCenter t.1 t.2.1) else none)

def scanPower (grid : Grid) : List Point :=
  (rowMajor grid).filterMap (fun t => if t.2.2 = 'O' then some (cellCenter t.1 t.2.1) else none)

/-- Wall coordinates are grid based in the source. -/
def scanWalls (grid : Grid) : List Point :=
  (rowMajor grid).filterMap
    (fun t => if t.2.2 = '#' then some { x := (t.2.1 : ℚ), y := (t.1 : ℚ) } else none)

def scanGs (grid : Grid) : List Point :=
  (rowMajor grid).filterMap (fun t => if t.2.2 = 'G' then some (cellCenter t.1 t.2.1) else none)

/-- Repeated assignment `pStart = {x, y}` keeps the last `P` of the scan. -/
def scanLastP (grid : Grid) (first : Point) : Point :=
  (rowMajor grid).foldl (fun acc t => if t.2.2 = 'P' then cellCenter t.1 t.2.1 else acc) first

def gateFold (acc : Option Point) (t : ℕ × ℕ × Char) : Option Point :=
  if t.2.2 = '-' then some (cellCenter t.1 t.2.1) else acc

/-- `gateRef.current = {x, y}` assignments during the scan: the ref keeps
its previous value when the grid holds no gate tile. -/
def scanGate (grid : Grid) (prev : Option Point) : Option Point :=
  (rowMajor grid).foldl gateFold prev

def gateScan (grid : Grid) : Option Point := scanGate grid none

def mkInitGhost (start : Point) (d : Direction) (i : ℕ) : Ghost :=
  { x := start.x, y := start.y, dir := d, nextDir := Direction.NONE, speed := GHOST_SPEED,
    color := GHOST_COLORS.getD (i % GHOST_COLORS.length) "",
    mode := GhostMode.SCATTER, id := i }

def initGhostsAux : ℕ → List Point → List Ghost
  | _, [] => []
  | i, st :: rest =>
    mkInitGhost st (if i % 2 = 0 then Direction.LEFT else Direction.RIGHT) i ::
      initGhostsAux (i + 1) rest

/-- The `while (ghostsRef.current.length < 4)` padding loop. -/
def padGhosts (g0 : Point) (gs : List Ghost) : List Ghost :=
  gs ++ (List.range (4 - gs.length)).map (fun k => mkInitGhost g0 Direction.UP (gs.length + k))

/-- `initLevel()`: rebuild pellets, power pellets, walls and ghosts from the
grid; the gate ref is only overwritten when a `-` tile is scanned. -/
def initLevel (grid : Grid) (s : GState) : GState :=
  if grid.length = 0 then s
  else
    let pStart := scanLastP grid { x := 1, y := 1 }
    let gStarts0 := scanGs grid
    let gStarts :=
      if gStarts0.length = 0 then [{ x := pStart.x, y := pStart.y - TILE_SIZE * 2 : Point }]
      else gStarts0
    { s with
      pellets := scanPellets grid,
      powerPellets := scanPower grid,
      walls := scanWalls grid,
      gate := scanGate grid s.gate,
      pacman := { s.pacman with x := pStart.x, y := pStart.y, dir := Direction.NONE,
                                nextDir := Direction.NONE },
      ghosts := padGhosts (gStarts.headD { x := 0, y := 0 }) (initGhostsAux 0 gStarts) }

def posOnlyPStart (grid : Grid) : Point :=
  scanLastP grid { x := TILE_SIZE * 10, y := TILE_SIZE * 15 }

/-- `gStarts[i % gStarts.length] || pStart`: with no `G` tiles the index is
`NaN`, the lookup is `undefined`, and the player start is used. -/
def posOnlyGhostStart (grid : Grid) (i : ℕ) : Point :=
  let gs := scanGs grid
  if gs.length = 0 then posOnlyPStart grid else gs.getD (i % gs.length) (posOnlyPStart grid)

def resetGhosts (grid : Grid) : ℕ → List Ghost → List Ghost
  | _, [] => []
  | i, g :: gs =>
    { g with x := (posOnlyGhostStart grid i).x, y := (posOnlyGhostStart grid i).y,
             mode := GhostMode.SCATTER } :: resetGhosts grid (i + 1) gs

/-- `initLevelPosOnly()`: reposition agents by a fresh scan of the grid. -/
def initLevelPosOnly (grid : Grid) (s : GState) : GState :=
  { s with
    pacman := { s.pacman with x := (posOnlyPStart grid).x, y := (posOnlyPStart grid).y,
                              dir := Direction.NONE, nextDir := Direction.NONE },
    ghosts := resetGhosts grid 0 s.ghosts }

/-- JavaScript `v || d` on an optional number (`0` is falsy). -/
def jsOr (v : Option ℚ) (d : ℚ) : ℚ :=
  match v with
  | some x => if x = 0 then d else x
  | none => d

/-- The `for (const ghost of ghostsRef.current)` collision loop. `i` is the
current index, `fuel` the number of remaining iterations, and `px, py` the
player coordinates captured before the loop. -/
def ghostLoopAux (grid : Grid) (px py : ℚ) : ℕ → ℕ → GState → List Ev → GState × List Ev
  | _, 0, s, evs => (s, evs)
  | i, fuel + 1, s, evs =>
    match s.ghosts.get? i with
    | none => (s, evs)
    | some g =>
      if hypotLt g.x g.y px py (TILE_SIZE * 0.8) = true then
        if g.mode = GhostMode.FRIGHTENED then
          let s2 :=
            { s with
              score := s.score + 200,
              ghosts := s.ghosts.set i
                { g with
                  x := jsOr (s.gate.map Point.x) (TILE_SIZE * 10),
                  y := jsOr (s.gate.map Point.y) (TILE_SIZE * 10) + TILE_SIZE,
                  mode := GhostMode.SCATTER } }
          ghostLoopAux grid px py (i + 1) fuel s2 (evs ++ [Ev.scoreUpdate s2.score])
        else if g.mode = GhostMode.EATEN then ghostLoopAux grid px py (i + 1) fuel s evs
        else
          let s2 := { s with lives := s.lives - 1 }
          if s2.lives ≤ 0 then
            ghostLoopAux grid px py (i + 1) fuel s2
              (evs ++ [Ev.livesUpdate s2.lives, Ev.gameOver false])
          else
            ghostLoopAux grid px py (i + 1) fuel (initLevelPosOnly grid s2)
              (evs ++ [Ev.livesUpdate s2.lives])
      else ghostLoopAux grid px py (i + 1) fuel s evs

/-- `checkCollisions()`: consumption, the win check (which short-circuits),
then the ghost loop. -/
def checkCollisions (grid : Grid) (s : GState) : GState × List Ev :=
  let px := s.pacman.x
  let py := s.pacman.y
  let c := consumptionPhase px py s
  let evs0 := if c.2 = true then [Ev.scoreUpdate c.1.score] else []
  if c.1.pellets.length = 0 ∧ c.1.powerPellets.length = 0 then
    (c.1, evs0 ++ [Ev.gameOver true])
  else
    let r := ghostLoopAux grid px py 0 c.1.ghosts.length c.1 []
    (r.1, evs0 ++ r.2)

/-- Firing the scheduled frighten-expiry callback with handle `tid`: if it
is still pending it is consumed and every ghost reverts to Scatter. -/
def fireExpiry (s : GState) (tid : ℕ) : GState :=
  if tid ∈ s.pendingTimers then
    { s with ghosts := s.ghosts.map (fun g => { g with mode := GhostMode.SCATTER }),
             pendingTimers := s.pendingTimers.filter (fun t => decide (t ≠ tid)) }
  else s

/-- The initial ref values of GameCanvas (timer ids start at 1, as
`window.setTimeout` returns positive integers). -/
def initialState : GState :=
  { pacman := { x := 0, y := 0, dir := Direction.NONE, nextDir := Direction.NONE,
                speed := PACMAN_SPEED },
    ghosts := [], pellets := [], powerPellets := [], walls := [], gate := none,
    score := 0, lives := 3, frightTimer := none, pendingTimers := [], nextTimerId := 1 }

/-- The reset effect (grid change or reset signal): `initLevel` plus score 0
and lives 3. It does not touch the frighten timer. -/
def resetEffect (grid : Grid) (s : GState) : GState × List Ev :=
  ({ initLevel grid s with score := 0, lives := 3 }, [Ev.scoreUpdate 0, Ev.livesUpdate 3])

/-- An arrow-key input buffering a requested heading. -/
def setNextDir (d : Direction) (s : GState) : GState :=
  if d = Direction.NONE then s else { s with pacman := { s.pacman with nextDir := d } }

/-- One Playing iteration of the main loop: move the player, update the
ghosts, then run collision detection. -/
def tick (grid : Grid) (rnd : ℕ → Bool × Bool × ℕ) (s : GState) : GState × List Ev :=
  let pac := moveEntity grid s.pacman false false
  let gs := updateGhosts grid pac rnd s.ghosts
  checkCollisions grid { s with pacman := pac, ghosts := gs }

/-- The operations that can hit the shared state: grid load / round reset,
a Playing tick (with its random draws), a timer expiry, and player input. -/
inductive Step : Grid × GState → Grid × GState → Prop where
  | load (p : Grid × GState) (grid2 : Grid) : Step p (grid2, (resetEffect grid2 p.2).1)
  | tickStep (p : Grid × GState) (rnd : ℕ → Bool × Bool × ℕ) :
      Step p (p.1, (tick p.1 rnd p.2).1)
  | fire (p : Grid × GState) (tid : ℕ) : Step p (p.1, fireExpiry p.2 tid)
  | input (p : Grid × GState) (d : Direction) : Step p (p.1, setNextDir d p.2)

/-- States reachable from a full game start on some grid. -/
inductive Reachable : Grid × GState → Prop where
  | start (grid : Grid) : Reachable (grid, (resetEffect grid initialState).1)
  | next {p q : Grid × GState} : Reachable p → Step p q → Reachable q

def ModesOk (s : GState) : Prop :=
  ∀ g ∈ s.ghosts, g.mode = GhostMode.SCATTER ∨ g.mode = GhostMode.FRIGHTENED

def TimerOk (s : GState) : Prop :=
  1 ≤ s.nextTimerId ∧
    (s.pendingTimers = [] ∨
      ∃ tid, s.frightTimer = some tid ∧ s.pendingTimers = [tid] ∧ tid ≠ 0)

def AllFright (s : GState) : Prop := ∀ g ∈ s.ghosts, g.mode = GhostMode.FRIGHTENED

def FreshTimer (s : GState) : Prop :=
  1 ≤ s.nextTimerId ∧
    ∃ tid, s.frightTimer = some tid ∧ s.pendingTimers = [tid] ∧ tid ≠ 0

def grid1 : Grid := mkGrid ["#####", "#P..#", "#####"]

def gridA : Grid := mkGrid ["#####", "#P-.#", "#####"]

def grid2 : Grid := mkGrid ["#####", "#PO.#", "#####"]

def startState1 : GState := (resetEffect grid1 initialState).1

def startState2 : GState := (resetEffect grid2 initialState).1

/-- Place the first ghost at the given coordinates (a ghost that has
wandered there over previous ticks). -/
def withGhost0At (s : GState) (nx ny : ℚ) : GState :=
  { s with ghosts :=
      match s.ghosts with
      | [] => []
      | g :: gs => { g with x := nx, y := ny } :: gs }

def sC1 : GState := withGhost0At startState1 36 36

def sE : GState := { startState2 with pacman := { startState2.pacman with x := 54 } }

def sR2 : GState := (resetEffect grid2 ((checkCollisions grid2 sE).1)).1

def sC5 : GState :=
  withGhost0At { startState1 with pacman := { startState1.pacman with x := 84 } } 84 36

def sX : GState := (consumptionPhase 84 36 sC5).1

/-- Entity centered on tile (1,1) of `grid1` requesting a right turn. -/
def eW : Entity :=
  { x := 36, y := 36, dir := Direction.NONE, nextDir := Direction.RIGHT, speed := 3 }

/-- Ghost centered on tile (1,1) of `grid1`, heading left. -/
def gW : Ghost :=
  { x := 36, y := 36, dir := Direction.LEFT, nextDir := Direction.NONE, speed := 2,
    color := "", mode := GhostMode.SCATTER, id := 0 }

/-- The first ghost of `sX` (it overlaps the player at (84, 36)). -/
def g5W : Ghost :=
  { x := 84, y := 36, dir := Direction.LEFT, nextDir := Direction.NONE, speed := 2,
    color := "#ef4444", mode := GhostMode.SCATTER, id := 0 }

/-- A round state whose collectible collections are exhausted. -/
def sWin : GState := { startState1 with pellets := [], powerPellets := [] }

theorem headD_mem {α : Type} (l : List α) (a : α) (h : 0 < l.length) : l.headD a ∈ l := by
  cases l with
  | nil => simp at h
  | cons x xs => simp

theorem getD_mem {α : Type} (l : List α) (n : ℕ) (a : α) (h : n < l.length) :
    l.getD n a ∈ l := by
  induction l generalizing n with
  | nil => simp at h
  | cons x xs ih =>
    cases n with
    | zero => simp
    | succ m =>
      rw [List.getD_cons_succ]
      exact List.mem_cons_of_mem x (ih m (by simpa using h))

theorem mem_insertByKey (k : Direction → ℚ) (d x : Direction) (l : List Direction)
    (h : x ∈ insertByKey k d l) : x = d ∨ x ∈ l := by
  induction l with
  | nil =>
    unfold insertByKey at h
    exact Or.inl (by simpa using h)
  | cons e es ih =>
    unfold insertByKey at h
    split at h
    · rcases List.mem_cons.mp h with h1 | h1
      · exact Or.inl h1
      · exact Or.inr h1
    · rcases List.mem_cons.mp h with h1 | h1
      · exact Or.inr (h1 ▸ List.mem_cons_self e es)
      · rcases ih h1 with h2 | h2
        · exact Or.inl h2
        · exact Or.inr (List.mem_cons_of_mem e h2)

theorem length_insertByKey (k : Direction → ℚ) (d : Direction) (l : List Direction) :
    (insertByKey k d l).length = l.length + 1 := by
  induction l with
  | nil => rfl
  | cons e es ih =>
    unfold insertByKey
    split
    · simp
    · simp [ih]

theorem length_sortByKey (k : Direction → ℚ) (l : List Direction) :
    (sortByKey k l).length = l.length := by
  induction l with
  | nil => rfl
  | cons d ds ih =>
    unfold sortByKey
    rw [length_insertByKey, ih, List.length_cons]

theorem mem_sortByKey (k : Direction → ℚ) (x : Direction) (l : List Direction)
    (h : x ∈ sortByKey k l) : x ∈ l := by
  induction l with
  | nil =>
    unfold sortByKey at h
    simp at h
  | cons d ds ih =>
    unfold sortByKey at h
    rcases mem_insertByKey k d x (sortByKey k ds) h with h1 | h1
    · exact h1 ▸ List.mem_cons_self d ds
    · exact List.mem_cons_of_mem d (ih h1)

theorem decideDir_mem (grid : Grid) (pac : Entity) (g : Ghost) (rnd : Bool × Bool × ℕ)
    (hx : isCentered g.x = true) (hy : isCentered g.y = true)
    (hnr : 0 < ((validDirs grid g).filter (fun d => decide (d ≠ opposite g.dir))).length) :
    decideDir grid pac g rnd ∈
      (validDirs grid g).filter (fun d => decide (d ≠ opposite g.dir)) := by
  unfold decideDir
  rw [if_pos ⟨hx, hy⟩]
  dsimp only
  rw [if_pos hnr]
  split
  · rw [if_pos (by rw [length_sortByKey]; exact hnr)]
    split
    · exact mem_sortByKey _ _ _
        (getD_mem _ _ _ (Nat.mod_lt _ (by rw [length_sortByKey]; exact hnr)))
    · exact mem_sortByKey _ _ _ (headD_mem _ _ (by rw [length_sortByKey]; exact hnr))
  · split
    · exact getD_mem _ _ _ (Nat.mod_lt _ hnr)
    · exact headD_mem _ _ hnr

/-- C9: for every centered ghost and every outcome of the random draws, the
heading produced by the decision step is never the opposite of the current
heading, except when no heading is enterable or every enterable heading is
the opposite one. -/
theorem c9_no_reverse (grid : Grid) (pac : Entity) (g : Ghost) (rnd : Bool × Bool × ℕ)
    (hx : isCentered g.x = true) (hy : isCentered g.y = true)
    (hrev : decideDir grid pac g rnd = opposite g.dir) :
    validDirs grid g = [] ∨ ∀ d ∈ validDirs grid g, d = opposite g.dir := by
  by_cases hnr :
      0 < ((validDirs grid g).filter (fun d => decide (d ≠ opposite g.dir))).length
  · have hm := decideDir_mem grid pac g rnd hx hy hnr
    have hne := (List.mem_filter.mp hm).2
    rw [hrev] at hne
    simp at hne
  · right
    intro d hd
    have hnil : (validDirs grid g).filter (fun d => decide (d ≠ opposite g.dir)) = [] :=
      List.length_eq_zero.mp (by omega)
    have := List.filter_eq_nil_iff.mp hnil d hd
    simpa using this

/-- Witness for C9 at a concrete dead end of `grid1`: the only enterable
heading from tile (1,1) is the reversal. -/
theorem c9_no_reverse_witness :
    validDirs grid1 gW = [] ∨ ∀ d ∈ validDirs grid1 gW, d = opposite gW.dir :=
  c9_no_reverse grid1 eW gW (false, false, 0) (by with_unfolding_all decide)
    (by with_unfolding_all decide) (by with_unfolding_all decide)

/-- C7: a wall tile is never enterable, a gate tile is enterable exactly for
ghosts, and a centered agent with a buffered heading adopts it, clears the
request and snaps to the tile center when the requested tile is enterable,
while heading and request are left unchanged when it is not. -/
theorem c7_turn_step :
    (∀ (grid : Grid) (c r : ℤ) (b : Bool),
       charAt grid r c = some '#' → isWalkable grid c r b = false) ∧
    (∀ (grid : Grid) (c r : ℤ) (b : Bool),
       charAt grid r c = some '-' →
       0 ≤ r → r < (grid.length : ℤ) → 0 ≤ c → c < (gridWidth grid : ℤ) →
       isWalkable grid c r b = b) ∧
    (∀ (grid : Grid) (e : Entity) (b : Bool),
       e.nextDir ≠ Direction.NONE → isCentered e.x = true → isCentered e.y = true →
       canMove grid e.x e.y e.nextDir b = true →
       turnStep grid e b =
         { e with dir := e.nextDir, nextDir := Direction.NONE,
                  x := tileCenter (getGridPos e.x), y := tileCenter (getGridPos e.y) }) ∧
    (∀ (grid : Grid) (e : Entity) (b : Bool),
       e.nextDir ≠ Direction.NONE → isCentered e.x = true → isCentered e.y = true →
       canMove grid e.x e.y e.nextDir b = false →
       turnStep grid e b = e) := by
  refine ⟨?_, ?_, ?_, ?_⟩
  · intro grid c r b h
    unfold isWalkable
    split
    · rfl
    · rw [h]
      with_unfolding_all rfl
  · intro grid c r b h h1 h2 h3 h4
    unfold isWalkable
    rw [if_neg (by push_neg; exact ⟨h1, h2, h3, h4⟩), h]
    with_unfolding_all rfl
  · intro grid e b h1 h2 h3 h4
    unfold turnStep
    rw [if_pos ⟨h1, h2, h3⟩, if_pos h4]
  · intro grid e b h1 h2 h3 h4
    unfold turnStep
    rw [if_pos ⟨h1, h2, h3⟩, if_neg (by simp [h4])]

/-- Witness for C7 on `grid1`: tile (0,0) is a wall and is not enterable,
and the centered entity `eW` adopts its buffered right turn with an exact
snap to the tile center. -/
theorem c7_turn_step_witness :
    isWalkable grid1 0 0 false = false ∧
    turnStep grid1 eW false =
      { eW with dir := eW.nextDir, nextDir := Direction.NONE,
                x := tileCenter (getGridPos eW.x), y := tileCenter (getGridPos eW.y) } :=
  ⟨c7_turn_step.1 grid1 0 0 false (by with_unfolding_all decide),
   c7_turn_step.2.2.1 grid1 eW false (by with_unfolding_all decide)
     (by with_unfolding_all decide) (by with_unfolding_all decide)
     (by with_unfolding_all decide)⟩

/-- C1: with four synthesized ghosts on a G-less grid and one ghost having
wandered onto the player, a single collision pass drives lives from 3 to
-1: the loop keeps decrementing after the mid-loop resets put every ghost
back onto the player spawn and after the GameOver report. -/
theorem c1_lives_negative :
    sC1.lives = 3 ∧
    (checkCollisions grid1 sC1).1.lives = -1 ∧
    ¬ (0 ≤ (checkCollisions grid1 sC1).1.lives) := by
  with_unfolding_all decide

/-- C2: the frighten expiry scheduled before a round reset is still pending
after the reset (neither the reset effect nor the loop cleanup clears it)
and subsequently fires, executing its mode assignments against the
reinitialized ghost list. -/
theorem c2_stale_timer :
    sR2.pendingTimers = [1] ∧
    sR2.frightTimer = some 1 ∧
    (fireExpiry sR2 1).pendingTimers = [] ∧
    (fireExpiry sR2 1).ghosts =
      sR2.ghosts.map (fun g => { g with mode := GhostMode.SCATTER }) ∧
    sR2.ghosts ≠ [] := by
  with_unfolding_all decide

theorem gateFold_keep (l : List (ℕ × ℕ × Char)) (p : Point) :
    ∃ q, l.foldl gateFold (some p) = some q := by
  induction l generalizing p with
  | nil => exact ⟨p, rfl⟩
  | cons t ts ih =>
    rw [List.foldl_cons]
    unfold gateFold
    split
    · exact ih _
    · exact ih p

theorem gateFold_some (l : List (ℕ × ℕ × Char)) (a : Option Point) (p : Point)
    (h : l.foldl gateFold none = some p) : l.foldl gateFold a = some p := by
  induction l generalizing a with
  | nil => simp at h
  | cons t ts ih =>
    rw [List.foldl_cons] at h ⊢
    by_cases hc : t.2.2 = '-'
    · have e1 : gateFold none t = some (cellCenter t.1 t.2.1) := by simp [gateFold, hc]
      have e2 : gateFold a t = some (cellCenter t.1 t.2.1) := by simp [gateFold, hc]
      rw [e1] at h
      rw [e2]
      exact h
    · have e1 : gateFold none t = none := by simp [gateFold, hc]
      have e2 : gateFold a t = a := by simp [gateFold, hc]
      rw [e1] at h
      rw [e2]
      exact ih a h

theorem gateFold_none (l : List (ℕ × ℕ × Char)) (a : Option Point)
    (h : l.foldl gateFold none = none) : l.foldl gateFold a = a := by
  induction l generalizing a with
  | nil => rfl
  | cons t ts ih =>
    rw [List.foldl_cons] at h ⊢
    by_cases hc : t.2.2 = '-'
    · exfalso
      have e1 : gateFold none t = some (cellCenter t.1 t.2.1) := by simp [gateFold, hc]
      rw [e1] at h
      obtain ⟨q, hq⟩ := gateFold_keep ts (cellCenter t.1 t.2.1)
      rw [hq] at h
      exact Option.noConfusion h
    · have e1 : gateFold none t = none := by simp [gateFold, hc]
      have e2 : gateFold a t = a := by simp [gateFold, hc]
      rw [e1] at h
      rw [e2]
      exact ih a h

/-- C4 counterexample: loading `grid1` (which has no gate tile) on top of
the state produced by `gridA` leaves the stale gate anchor of `gridA` in
place instead of making the gate absent. -/
theorem c4_gate_stale_counterexample :
    gateScan grid1 = none ∧
    (initLevel grid1 ((resetEffect gridA initialState).1)).gate =
      some { x := 60, y := 36 } ∧
    ¬ (initLevel grid1 ((resetEffect gridA initialState).1)).gate = none := by
  with_unfolding_all decide

/-- C4 amended: on a non-empty grid, pellets, power pellets and walls are
recomputed solely from the new grid (independently of the previous state);
the gate anchor equals the new grid's last gate tile when one exists, but
when the new grid contains no gate tile the previously loaded gate anchor
is retained rather than cleared. -/
theorem c4_derived_from_grid (grid : Grid) (s s2 : GState) (h : grid.length ≠ 0) :
    (initLevel grid s).pellets = (initLevel grid s2).pellets ∧
    (initLevel grid s).powerPellets = (initLevel grid s2).powerPellets ∧
    (initLevel grid s).walls = (initLevel grid s2).walls ∧
    (∀ p, gateScan grid = some p → (initLevel grid s).gate = some p) ∧
    (gateScan grid = none → (initLevel grid s).gate = s.gate) := by
  have hg : ∀ s3 : GState, (initLevel grid s3).gate = scanGate grid s3.gate := by
    intro s3
    unfold initLevel
    rw [if_neg h]
  have hp : ∀ s3 : GState, (initLevel grid s3).pellets = scanPellets grid := by
    intro s3
    unfold initLevel
    rw [if_neg h]
  have hpp : ∀ s3 : GState, (initLevel grid s3).powerPellets = scanPower grid := by
    intro s3
    unfold initLevel
    rw [if_neg h]
  have hw : ∀ s3 : GState, (initLevel grid s3).walls = scanWalls grid := by
    intro s3
    unfold initLevel
    rw [if_neg h]
  refine ⟨by rw [hp, hp], by rw [hpp, hpp], by rw [hw, hw], ?_, ?_⟩
  · intro p hscan
    rw [hg]
    exact gateFold_some _ _ _ hscan
  · intro hscan
    rw [hg]
    exact gateFold_none _ _ hscan

/-- Witness for C4 at the concrete grids: the pellet collection after a load
of `grid1` is independent of the previous state, and after previously
loading `gridA` the gate anchor is simply carried over. -/
theorem c4_derived_from_grid_witness :
    (initLevel grid1 initialState).pellets =
      (initLevel grid1 ((resetEffect gridA initialState).1)).pellets ∧
    (initLevel grid1 ((resetEffect gridA initialState).1)).gate =
      ((resetEffect gridA initialState).1).gate :=
  ⟨(c4_derived_from_grid grid1 initialState ((resetEffect gridA initialState).1)
      (by with_unfolding_all decide)).1,
   (c4_derived_from_grid grid1 ((resetEffect gridA initialState).1) initialState
      (by with_unfolding_all decide)).2.2.2.2 (by with_unfolding_all decide)⟩

/-- C5 counterexample: on the G-less `grid1` a life-loss reset with lives
remaining places ghost 0 at the player spawn (36, 36) rather than at its
synthesized level-load spawn (36, -12). -/
theorem c5_reset_spawn_counterexample :
    (checkCollisions grid1 sC5).1.lives = 2 ∧
    ((checkCollisions grid1 sC5).1.ghosts.get? 0).map (fun g => (g.x, g.y)) =
      some (36, 36) ∧
    (startState1.ghosts.get? 0).map (fun g => (g.x, g.y)) = some (36, -12) ∧
    ((36 : ℚ), (36 : ℚ)) ≠ ((36 : ℚ), (-12 : ℚ)) := by
  with_unfolding_all decide

theorem resetGhosts_get (grid : Grid) (gs : List Ghost) :
    ∀ (i0 j : ℕ), (resetGhosts grid i0 gs).get? j =
      (gs.get? j).map (fun g =>
        { g with x := (posOnlyGhostStart grid (i0 + j)).x,
                 y := (posOnlyGhostStart grid (i0 + j)).y,
                 mode := GhostMode.SCATTER }) := by
  induction gs with
  | nil => intro i0 j; rfl
  | cons g gs ih =>
    intro i0 j
    cases j with
    | zero => simp [resetGhosts]
    | succ m =>
      unfold resetGhosts
      rw [List.get?_cons_succ, List.get?_cons_succ, ih (i0 + 1) m]
      have harith : i0 + 1 + m = i0 + (m + 1) := by omega
      rw [harith]

/-- C5 amended: a tick in which a non-Frightened, non-Eaten ghost overlaps
the player within 0.8 tile decrements lives by one and, when lives remain
above zero, repositions the agents by a fresh grid scan — the player to the
grid's P tile, ghost i to the (i mod k)-th of the k G tiles — while
pellets, power pellets and score are unchanged by the reset; on grids with
no G tile every ghost is instead placed at the player spawn, which differs
from the synthesized level-load spawns. -/
theorem c5_life_loss_reset :
    (∀ (grid : Grid) (px py : ℚ) (i fuel : ℕ) (s : GState) (evs : List Ev) (g : Ghost),
       s.ghosts.get? i = some g →
       hypotLt g.x g.y px py (TILE_SIZE * 0.8) = true →
       g.mode ≠ GhostMode.FRIGHTENED → g.mode ≠ GhostMode.EATEN →
       ¬ (s.lives - 1 ≤ 0) →
       ghostLoopAux grid px py i (fuel + 1) s evs =
         ghostLoopAux grid px py (i + 1) fuel
           (initLevelPosOnly grid { s with lives := s.lives - 1 })
           (evs ++ [Ev.livesUpdate (s.lives - 1)])) ∧
    (∀ (grid : Grid) (s : GState),
       (initLevelPosOnly grid s).pellets = s.pellets ∧
       (initLevelPosOnly grid s).powerPellets = s.powerPellets ∧
       (initLevelPosOnly grid s).score = s.score ∧
       (initLevelPosOnly grid s).lives = s.lives ∧
       (initLevelPosOnly grid s).pacman.x = (posOnlyPStart grid).x ∧
       (initLevelPosOnly grid s).pacman.y = (posOnlyPStart grid).y ∧
       (∀ i g, s.ghosts.get? i = some g →
          (initLevelPosOnly grid s).ghosts.get? i =
            some { g with x := (posOnlyGhostStart grid i).x,
                          y := (posOnlyGhostStart grid i).y,
                          mode := GhostMode.SCATTER })) ∧
    (∀ (grid : Grid) (i : ℕ), scanGs grid = [] →
       posOnlyGhostStart grid i = posOnlyPStart grid) := by
  refine ⟨?_, ?_, ?_⟩
  · intro grid px py i fuel s evs g hget hhit hm1 hm2 hlv
    simp only [ghostLoopAux, hget]
    rw [if_pos hhit, if_neg hm1, if_neg hm2]
    rw [if_neg hlv]
  · intro grid s
    refine ⟨rfl, rfl, rfl, rfl, rfl, rfl, ?_⟩
    intro i g hget
    show (resetGhosts grid 0 s.ghosts).get? i = _
    rw [resetGhosts_get grid s.ghosts 0 i, hget, Nat.zero_add]
    rfl
  · intro grid i h
    unfold posOnlyGhostStart
    simp [h]

/-- Witness for C5 at the concrete G-less grid: the death branch fires for
ghost 0 of `sX` and the reset sends every ghost to the player spawn. -/
theorem c5_life_loss_reset_witness :
    ghostLoopAux grid1 84 36 0 (3 + 1) sX [] =
      ghostLoopAux grid1 84 36 (0 + 1) 3
        (initLevelPosOnly grid1 { sX with lives := sX.lives - 1 })
        ([] ++ [Ev.livesUpdate (sX.lives - 1)]) ∧
    posOnlyGhostStart grid1 0 = posOnlyPStart grid1 :=
  ⟨c5_life_loss_reset.1 grid1 84 36 0 3 sX [] g5W (by with_unfolding_all decide)
      (by with_unfolding_all decide) (by with_unfolding_all decide)
      (by with_unfolding_all decide) (by with_unfolding_all decide),
   c5_life_loss_reset.2.2 grid1 0 (by with_unfolding_all decide)⟩

theorem powerStep_lives (px py : ℚ) (acc : GState × List Point × Bool) (p : Point) :
    (powerStep px py acc p).1.lives = acc.1.lives := by
  simp only [powerStep]
  split <;> rfl

theorem powerFold_lives (px py : ℚ) (l : List Point) :
    ∀ acc : GState × List Point × Bool,
      ((l.foldl (powerStep px py) acc).1).lives = acc.1.lives := by
  induction l with
  | nil => intro acc; rfl
  | cons p ps ih =>
    intro acc
    rw [List.foldl_cons, ih, powerStep_lives]

theorem consumption_lives (px py : ℚ) (s : GState) :
    (consumptionPhase px py s).1.lives = s.lives := by
  unfold consumptionPhase
  dsimp only
  rw [powerFold_lives]

theorem ghostLoopAux_no_won (grid : Grid) (px py : ℚ) :
    ∀ (fuel i : ℕ) (s : GState) (evs : List Ev),
      Ev.gameOver true ∈ (ghostLoopAux grid px py i fuel s evs).2 →
      Ev.gameOver true ∈ evs := by
  intro fuel
  induction fuel with
  | zero => intro i s evs h; exact h
  | succ n ih =>
    intro i s evs h
    cases hg : s.ghosts.get? i with
    | none =>
      simp only [ghostLoopAux, hg] at h
      exact h
    | some g =>
      simp only [ghostLoopAux, hg] at h
      split_ifs at h with h1 h2 h3 h4
      · rcases List.mem_append.mp (ih _ _ _ h) with h5 | h5
        · exact h5
        · simp at h5
      · exact ih _ _ _ h
      · rcases List.mem_append.mp (ih _ _ _ h) with h5 | h5
        · exact h5
        · simp at h5
      · rcases List.mem_append.mp (ih _ _ _ h) with h5 | h5
        · exact h5
        · simp at h5
      · exact ih _ _ _ h

/-- C3: during a tick, after consumption has been applied, a Won outcome is
reported if and only if both the pellet and the power-pellet collections
are empty; and whenever it is reported, ghost-collision handling is skipped
for the rest of the tick — the final state is exactly the consumption-phase
state, lives are unchanged, and no life-loss or lost-game event occurs. -/
theorem c3_win_check (grid : Grid) (s : GState) :
    (Ev.gameOver true ∈ (checkCollisions grid s).2 ↔
      ((consumptionPhase s.pacman.x s.pacman.y s).1.pellets = [] ∧
       (consumptionPhase s.pacman.x s.pacman.y s).1.powerPellets = [])) ∧
    (((consumptionPhase s.pacman.x s.pacman.y s).1.pellets = [] ∧
      (consumptionPhase s.pacman.x s.pacman.y s).1.powerPellets = []) →
      (checkCollisions grid s).1 = (consumptionPhase s.pacman.x s.pacman.y s).1 ∧
      (checkCollisions grid s).1.lives = s.lives ∧
      (∀ n, Ev.livesUpdate n ∉ (checkCollisions grid s).2) ∧
      Ev.gameOver false ∉ (checkCollisions grid s).2) := by
  by_cases hwin :
      (consumptionPhase s.pacman.x s.pacman.y s).1.pellets.length = 0 ∧
      (consumptionPhase s.pacman.x s.pacman.y s).1.powerPellets.length = 0
  · have hc : checkCollisions grid s =
        ((consumptionPhase s.pacman.x s.pacman.y s).1,
         (if (consumptionPhase s.pacman.x s.pacman.y s).2 = true
          then [Ev.scoreUpdate (consumptionPhase s.pacman.x s.pacman.y s).1.score]
          else []) ++ [Ev.gameOver true]) := by
      simp only [checkCollisions]
      rw [if_pos hwin]
    constructor
    · rw [hc]
      constructor
      · intro _
        exact ⟨List.length_eq_zero.mp hwin.1, List.length_eq_zero.mp hwin.2⟩
      · intro _
        simp
    · intro _
      rw [hc]
      refine ⟨rfl, consumption_lives _ _ _, ?_, ?_⟩
      · intro n
        split <;> simp
      · split <;> simp
  · have hc : checkCollisions grid s =
        ((ghostLoopAux grid s.pacman.x s.pacman.y 0
            (consumptionPhase s.pacman.x s.pacman.y s).1.ghosts.length
            (consumptionPhase s.pacman.x s.pacman.y s).1 []).1,
         (if (consumptionPhase s.pacman.x s.pacman.y s).2 = true
          then [Ev.scoreUpdate (consumptionPhase s.pacman.x s.pacman.y s).1.score]
          else []) ++
         (ghostLoopAux grid s.pacman.x s.pacman.y 0
            (consumptionPhase s.pacman.x s.pacman.y s).1.ghosts.length
            (consumptionPhase s.pacman.x s.pacman.y s).1 []).2) := by
      simp only [checkCollisions]
      rw [if_neg hwin]
    constructor
    · rw [hc]
      constructor
      · intro hmem
        exfalso
        rcases List.mem_append.mp hmem with h1 | h1
        · revert h1
          split <;> simp
        · simpa using ghostLoopAux_no_won grid _ _ _ _ _ _ h1
      · intro hemp
        exact absurd ⟨by simp [hemp.1], by simp [hemp.2]⟩ hwin
    · intro hemp
      exact absurd ⟨by simp [hemp.1], by simp [hemp.2]⟩ hwin

/-- Witness for C3: with both collections exhausted, the tick reports the
Won outcome and leaves lives untouched. -/
theorem c3_win_check_witness :
    Ev.gameOver true ∈ (checkCollisions grid1 sWin).2 ∧
    (checkCollisions grid1 sWin).1.lives = sWin.lives :=
  ⟨(c3_win_check grid1 sWin).1.mpr (by with_unfolding_all decide),
   ((c3_win_check grid1 sWin).2 (by with_unfolding_all decide)).2.1⟩

theorem timerOk_fields (s1 s2 : GState)
    (h1 : s2.pendingTimers = s1.pendingTimers) (h2 : s2.frightTimer = s1.frightTimer)
    (h3 : s2.nextTimerId = s1.nextTimerId) (h : TimerOk s1) : TimerOk s2 := by
  unfold TimerOk at *
  rw [h1, h2, h3]
  exact h

theorem timerOk_of_fresh (s : GState) (h : FreshTimer s) : TimerOk s := ⟨h.1, Or.inr h.2⟩

theorem clearIfTruthy_nil (o : Option ℕ) : clearIfTruthy o [] = [] := by
  cases o with
  | none => rfl
  | some tid =>
    simp only [clearIfTruthy]
    split <;> simp

theorem clearIfTruthy_single (tid : ℕ) (h : tid ≠ 0) :
    clearIfTruthy (some tid) [tid] = [] := by
  simp only [clearIfTruthy]
  rw [if_neg h]
  simp

theorem powerStep_hit_eq (px py : ℚ) (s : GState) (kept : List Point) (e : Bool)
    (p : Point) (h : hypotLt p.x p.y px py (TILE_SIZE / 2) = true) :
    powerStep px py (s, kept, e) p =
      ({ s with score := s.score + 50,
                ghosts := s.ghosts.map (fun g => { g with mode := GhostMode.FRIGHTENED }),
                pendingTimers := clearIfTruthy s.frightTimer s.pendingTimers ++ [s.nextTimerId],
                frightTimer := some s.nextTimerId,
                nextTimerId := s.nextTimerId + 1 }, kept, true) := by
  simp only [powerStep]
  rw [if_pos h]

theorem powerStep_miss_eq (px py : ℚ) (s : GState) (kept : List Point) (e : Bool)
    (p : Point) (h : ¬ hypotLt p.x p.y px py (TILE_SIZE / 2) = true) :
    powerStep px py (s, kept, e) p = (s, kept ++ [p], e) := by
  simp only [powerStep]
  rw [if_neg h]

theorem map_mode_frightened (gs : List Ghost) :
    ∀ g ∈ gs.map (fun g => { g with mode := GhostMode.FRIGHTENED }),
      g.mode = GhostMode.FRIGHTENED := by
  intro g hg
  rcases List.mem_map.mp hg with ⟨g0, _, rfl⟩
  rfl

theorem powerStep_after_hit (px py : ℚ) (acc : GState × List Point × Bool) (p : Point)
    (h : hypotLt p.x p.y px py (TILE_SIZE / 2) = true) (ht : TimerOk acc.1) :
    AllFright (powerStep px py acc p).1 ∧ FreshTimer (powerStep px py acc p).1 := by
  obtain ⟨s, kept, e⟩ := acc
  rw [powerStep_hit_eq px py s kept e p h]
  refine ⟨map_mode_frightened s.ghosts, Nat.le_succ_of_le ht.1, s.nextTimerId, rfl, ?_, ?_⟩
  · show clearIfTruthy s.frightTimer s.pendingTimers ++ [s.nextTimerId] = [s.nextTimerId]
    rcases ht.2 with hnil | ⟨t0, hft, hpend, ht0⟩
    · rw [hnil, clearIfTruthy_nil]
      rfl
    · rw [hft, hpend, clearIfTruthy_single t0 ht0]
      rfl
  · exact Nat.one_le_iff_ne_zero.mp ht.1

theorem powerStep_AF (px py : ℚ) (acc : GState × List Point × Bool) (p : Point)
    (h : AllFright acc.1) : AllFright (powerStep px py acc p).1 := by
  obtain ⟨s, kept, e⟩ := acc
  by_cases hh : hypotLt p.x p.y px py (TILE_SIZE / 2) = true
  · rw [powerStep_hit_eq px py s kept e p hh]
    exact map_mode_frightened s.ghosts
  · rw [powerStep_miss_eq px py s kept e p hh]
    exact h

theorem powerStep_FT (px py : ℚ) (acc : GState × List Point × Bool) (p : Point)
    (h : FreshTimer acc.1) : FreshTimer (powerStep px py acc p).1 := by
  by_cases hh : hypotLt p.x p.y px py (TILE_SIZE / 2) = true
  · exact (powerStep_after_hit px py acc p hh (timerOk_of_fresh _ h)).2
  · obtain ⟨s, kept, e⟩ := acc
    rw [powerStep_miss_eq px py s kept e p hh]
    exact h

theorem powerStep_TimerOk (px py : ℚ) (acc : GState × List Point × Bool) (p : Point)
    (h : TimerOk acc.1) : TimerOk (powerStep px py acc p).1 := by
  by_cases hh : hypotLt p.x p.y px py (TILE_SIZE / 2) = true
  · exact timerOk_of_fresh _ (powerStep_after_hit px py acc p hh h).2
  · obtain ⟨s, kept, e⟩ := acc
    rw [powerStep_miss_eq px py s kept e p hh]
    exact h

theorem powerFold_TimerOk (px py : ℚ) (l : List Point) :
    ∀ acc : GState × List Point × Bool,
      TimerOk acc.1 → TimerOk ((l.foldl (powerStep px py) acc).1) := by
  induction l with
  | nil => intro acc h; exact h
  | cons p ps ih =>
    intro acc h
    rw [List.foldl_cons]
    exact ih _ (powerStep_TimerOk px py acc p h)

theorem powerFold_AF (px py : ℚ) (l : List Point) :
    ∀ acc : GState × List Point × Bool,
      AllFright acc.1 → AllFright ((l.foldl (powerStep px py) acc).1) := by
  induction l with
  | nil => intro acc h; exact h
  | cons p ps ih =>
    intro acc h
    rw [List.foldl_cons]
    exact ih _ (powerStep_AF px py acc p h)

theorem powerFold_FT (px py : ℚ) (l : List Point) :
    ∀ acc : GState × List Point × Bool,
      FreshTimer acc.1 → FreshTimer ((l.foldl (powerStep px py) acc).1) := by
  induction l with
  | nil => intro acc h; exact h
  | cons p ps ih =>
    intro acc h
    rw [List.foldl_cons]
    exact ih _ (powerStep_FT px py acc p h)

theorem powerStep_AF_hit (px py : ℚ) (acc : GState × List Point × Bool) (p : Point)
    (h : hypotLt p.x p.y px py (TILE_SIZE / 2) = true) :
    AllFright (powerStep px py acc p).1 := by
  obtain ⟨s, kept, e⟩ := acc
  rw [powerStep_hit_eq px py s kept e p h]
  exact map_mode_frightened s.ghosts

theorem powerFold_kept (px py : ℚ) (l : List Point) :
    ∀ acc : GState × List Point × Bool,
      ((l.foldl (powerStep px py) acc).2.1) =
        acc.2.1 ++ l.filter (fun q => ! hypotLt q.x q.y px py (TILE_SIZE / 2)) := by
  induction l with
  | nil => intro acc; simp
  | cons p ps ih =>
    intro acc
    obtain ⟨s0, k0, e0⟩ := acc
    rw [List.foldl_cons, List.filter_cons]
    by_cases hh : hypotLt p.x p.y px py (TILE_SIZE / 2) = true
    · rw [powerStep_hit_eq px py s0 k0 e0 p hh, ih]
      simp [hh]
    · rw [powerStep_miss_eq px py s0 k0 e0 p hh, ih]
      have hb : hypotLt p.x p.y px py (TILE_SIZE / 2) = false := by
        cases hc : hypotLt p.x p.y px py (TILE_SIZE / 2)
        · rfl
        · exact absurd hc hh
      simp [hb]

theorem consInit_TimerOk (px py : ℚ) (s : GState) (h : TimerOk s) :
    TimerOk (consInit px py s).1 := timerOk_fields _ _ rfl rfl rfl h

theorem consumption_TimerOk (px py : ℚ) (s : GState) (h : TimerOk s) :
    TimerOk (consumptionPhase px py s).1 :=
  timerOk_fields ((s.powerPellets.foldl (powerStep px py) (consInit px py s)).1) _
    rfl rfl rfl
    (powerFold_TimerOk px py s.powerPellets (consInit px py s) (consInit_TimerOk px py s h))

theorem consumption_hit (px py : ℚ) (s : GState) (p : Point)
    (hp : p ∈ s.powerPellets) (hh : hypotLt p.x p.y px py (TILE_SIZE / 2) = true) :
    p ∉ (consumptionPhase px py s).1.powerPellets ∧
    (∀ g ∈ (consumptionPhase px py s).1.ghosts, g.mode = GhostMode.FRIGHTENED) ∧
    (TimerOk s → ∃ tid, (consumptionPhase px py s).1.frightTimer = some tid ∧
       (consumptionPhase px py s).1.pendingTimers = [tid]) := by
  obtain ⟨l1, l2, hsp⟩ := List.append_of_mem hp
  refine ⟨?_, ?_, ?_⟩
  · intro hmem
    have hkept : (consumptionPhase px py s).1.powerPellets =
        (consInit px py s).2.1 ++ s.powerPellets.filter
          (fun q => ! hypotLt q.x q.y px py (TILE_SIZE / 2)) := by
      show (s.powerPellets.foldl (powerStep px py) (consInit px py s)).2.1 = _
      rw [powerFold_kept]
    have hnil : (consInit px py s).2.1 = ([] : List Point) := rfl
    rw [hnil, List.nil_append] at hkept
    rw [hkept] at hmem
    have h2 := (List.mem_filter.mp hmem).2
    rw [hh] at h2
    simp at h2
  · intro g hg
    have hgh : (consumptionPhase px py s).1.ghosts =
        ((s.powerPellets.foldl (powerStep px py) (consInit px py s)).1).ghosts := rfl
    rw [hgh, hsp, List.foldl_append, List.foldl_cons] at hg
    exact powerFold_AF px py l2
      (powerStep px py (l1.foldl (powerStep px py) (consInit px py s)) p)
      (powerStep_AF_hit px py (l1.foldl (powerStep px py) (consInit px py s)) p hh) g hg
  · intro ht
    have hft : (consumptionPhase px py s).1.frightTimer =
        ((s.powerPellets.foldl (powerStep px py) (consInit px py s)).1).frightTimer := rfl
    have hpt : (consumptionPhase px py s).1.pendingTimers =
        ((s.powerPellets.foldl (powerStep px py) (consInit px py s)).1).pendingTimers := rfl
    rw [hft, hpt, hsp, List.foldl_append, List.foldl_cons]
    obtain ⟨_, tid, h1, h2, _⟩ :=
      powerFold_FT px py l2
        (powerStep px py (l1.foldl (powerStep px py) (consInit px py s)) p)
        (powerStep_after_hit px py (l1.foldl (powerStep px py) (consInit px py s)) p hh
          (powerFold_TimerOk px py l1 (consInit px py s) (consInit_TimerOk px py s ht))).2
    exact ⟨tid, h1, h2⟩

theorem ghostLoopAux_timer (grid : Grid) (px py : ℚ) :
    ∀ (fuel i : ℕ) (s : GState) (evs : List Ev),
      (ghostLoopAux grid px py i fuel s evs).1.pendingTimers = s.pendingTimers ∧
      (ghostLoopAux grid px py i fuel s evs).1.frightTimer = s.frightTimer ∧
      (ghostLoopAux grid px py i fuel s evs).1.nextTimerId = s.nextTimerId := by
  intro fuel
  induction fuel with
  | zero => intro i s evs; exact ⟨rfl, rfl, rfl⟩
  | succ n ih =>
    intro i s evs
    cases hg : s.ghosts.get? i with
    | none =>
      have he : ghostLoopAux grid px py i (n + 1) s evs = (s, evs) := by
        simp only [ghostLoopAux, hg]
      rw [he]
      exact ⟨rfl, rfl, rfl⟩
    | some g =>
      simp only [ghostLoopAux, hg]
      split_ifs with h1 h2 h3 h4
      · exact ih _ _ _
      · exact ih _ _ _
      · exact ih _ _ _
      · exact ih _ _ _
      · exact ih _ _ _

theorem checkCollisions_TimerOk (grid : Grid) (s : GState) (h : TimerOk s) :
    TimerOk (checkCollisions grid s).1 := by
  simp only [checkCollisions]
  split
  · exact consumption_TimerOk _ _ _ h
  · exact timerOk_fields _ _ (ghostLoopAux_timer grid _ _ _ _ _ _).1
      (ghostLoopAux_timer grid _ _ _ _ _ _).2.1
      (ghostLoopAux_timer grid _ _ _ _ _ _).2.2
      (consumption_TimerOk _ _ _ h)

theorem tick_TimerOk (grid : Grid) (rnd : ℕ → Bool × Bool × ℕ) (s : GState)
    (h : TimerOk s) : TimerOk (tick grid rnd s).1 := by
  unfold tick
  dsimp only
  exact checkCollisions_TimerOk _ _ (timerOk_fields _ _ rfl rfl rfl h)

theorem initLevel_TimerOk (grid : Grid) (s : GState) (h : TimerOk s) :
    TimerOk (initLevel grid s) := by
  unfold initLevel
  split
  · exact h
  · exact timerOk_fields _ _ rfl rfl rfl h

theorem resetEffect_TimerOk (grid : Grid) (s : GState) (h : TimerOk s) :
    TimerOk (resetEffect grid s).1 :=
  timerOk_fields _ _ rfl rfl rfl (initLevel_TimerOk grid s h)

theorem fireExpiry_TimerOk (s : GState) (tid : ℕ) (h : TimerOk s) :
    TimerOk (fireExpiry s tid) := by
  unfold fireExpiry
  split
  case isTrue hmem =>
    rcases h.2 with hnil | ⟨t0, hft, hpend, ht0⟩
    · rw [hnil] at hmem
      simp at hmem
    · refine ⟨h.1, Or.inl ?_⟩
      show s.pendingTimers.filter (fun t => decide (t ≠ tid)) = []
      have htid : tid = t0 := by
        rw [hpend] at hmem
        simpa using hmem
      rw [hpend, htid]
      simp
  case isFalse _ => exact h

theorem setNextDir_TimerOk (d : Direction) (s : GState) (h : TimerOk s) :
    TimerOk (setNextDir d s) := by
  unfold setNextDir
  split
  · exact h
  · exact timerOk_fields _ _ rfl rfl rfl h

theorem timerOk_reachable : ∀ p : Grid × GState, Reachable p → TimerOk p.2 := by
  intro p h
  induction h with
  | start grid => exact resetEffect_TimerOk _ _ ⟨le_refl 1, Or.inl rfl⟩
  | next hp hstep ih =>
    cases hstep with
    | load grid2 => exact resetEffect_TimerOk _ _ ih
    | tickStep rnd => exact tick_TimerOk _ _ _ ih
    | fire tid => exact fireExpiry_TimerOk _ _ ih
    | input d => exact setNextDir_TimerOk _ _ ih

/-- C8: an enterability check one step past the first or last column always
succeeds regardless of tile contents; the wrap stage relocates an agent more
than half a tile beyond either horizontal edge to the opposite edge and
never touches the y-coordinate; and a movement step either stops early or
ends in the wrap stage. -/
theorem c8_tunnel :
    (∀ (grid : Grid) (x y : ℚ) (d : Direction) (b : Bool),
       nextColOf x d < 0 ∨ (gridWidth grid : ℤ) ≤ nextColOf x d →
       canMove grid x y d b = true) ∧
    (∀ (w : ℕ) (e : Entity),
       (wrapStep w e).y = e.y ∧ (wrapStep w e).dir = e.dir ∧
       (wrapStep w e).nextDir = e.nextDir) ∧
    (∀ (w : ℕ) (e : Entity), e.x < -(TILE_SIZE / 2) →
       (wrapStep w e).x = (w : ℚ) * TILE_SIZE + TILE_SIZE / 2) ∧
    (∀ (w : ℕ) (e : Entity), (w : ℚ) * TILE_SIZE + TILE_SIZE / 2 < e.x →
       (wrapStep w e).x = -(TILE_SIZE / 2)) ∧
    (∀ (grid : Grid) (e : Entity) (b f : Bool),
       moveEntity grid e b f = turnStep grid e b ∨
       ∃ e2, moveEntity grid e b f = wrapStep (gridWidth grid) e2) := by
  refine ⟨?_, ?_, ?_, ?_, ?_⟩
  · intro grid x y d b h
    unfold canMove
    rw [if_pos h]
  · intro w e
    unfold wrapStep
    dsimp only
    refine ⟨?_, ?_, ?_⟩ <;> (split <;> split <;> rfl)
  · intro w e hx
    have hle : ¬ ((w : ℚ) * TILE_SIZE + TILE_SIZE / 2 < (w : ℚ) * TILE_SIZE + TILE_SIZE / 2) :=
      lt_irrefl _
    simp only [wrapStep, if_pos hx]
    rw [if_neg hle]
  · intro w e hx
    have hw : (0 : ℚ) ≤ (w : ℚ) * TILE_SIZE := by
      have := Nat.cast_nonneg (α := ℚ) w
      unfold TILE_SIZE
      positivity
    have h1 : ¬ (e.x < -(TILE_SIZE / 2)) := by
      unfold TILE_SIZE at *
      intro hcon
      linarith
    simp only [wrapStep, if_neg h1]
    rw [if_pos hx]
  · intro grid e b f
    unfold moveEntity
    dsimp only
    split
    · exact Or.inl rfl
    · split
      · exact Or.inl rfl
      · exact Or.inr ⟨_, rfl⟩

/-- Witness for C8: a step left from the first column of `grid1` is
permitted despite the wall there, and an agent half a tile past the left
edge is relocated to the right edge with its y-coordinate preserved. -/
theorem c8_tunnel_witness :
    canMove grid1 2 36 Direction.LEFT false = true ∧
    (wrapStep 5 { eW with x := -13 }).x = ((5 : ℕ) : ℚ) * TILE_SIZE + TILE_SIZE / 2 ∧
    (wrapStep 5 { eW with x := -13 }).y = { eW with x := (-13 : ℚ) }.y :=
  ⟨c8_tunnel.1 grid1 2 36 Direction.LEFT false (by with_unfolding_all decide),
   c8_tunnel.2.2.1 5 { eW with x := -13 } (by norm_num [TILE_SIZE]),
   (c8_tunnel.2.1 5 { eW with x := -13 }).1⟩

/-- C6: hitting a remaining power pellet removes it, adds its point value
(50) to the score, puts every ghost into Frightened mode immediately, and
(re)starts the single frighten timer, cancelling any previous pending
expiry — so in every reachable state at most one expiry is pending — and
firing a pending expiry reverts every ghost to Scatter. -/
theorem c6_power_pellet :
    (∀ (px py : ℚ) (s : GState) (kept : List Point) (e : Bool) (p : Point),
       hypotLt p.x p.y px py (TILE_SIZE / 2) = true →
       powerStep px py (s, kept, e) p =
         ({ s with
              score := s.score + 50,
              ghosts := s.ghosts.map (fun g => { g with mode := GhostMode.FRIGHTENED }),
              pendingTimers := clearIfTruthy s.frightTimer s.pendingTimers ++ [s.nextTimerId],
              frightTimer := some s.nextTimerId,
              nextTimerId := s.nextTimerId + 1 }, kept, true)) ∧
    (∀ (px py : ℚ) (s : GState) (p : Point),
       p ∈ s.powerPellets → hypotLt p.x p.y px py (TILE_SIZE / 2) = true →
       p ∉ (consumptionPhase px py s).1.powerPellets ∧
       (∀ g ∈ (consumptionPhase px py s).1.ghosts, g.mode = GhostMode.FRIGHTENED) ∧
       (TimerOk s → ∃ tid, (consumptionPhase px py s).1.frightTimer = some tid ∧
          (consumptionPhase px py s).1.pendingTimers = [tid])) ∧
    (∀ p : Grid × GState, Reachable p → p.2.pendingTimers.length ≤ 1) ∧
    (∀ (s : GState) (tid : ℕ), tid ∈ s.pendingTimers →
       ∀ g ∈ (fireExpiry s tid).ghosts, g.mode = GhostMode.SCATTER) := by
  refine ⟨?_, ?_, ?_, ?_⟩
  · intro px py s kept e p h
    exact powerStep_hit_eq px py s kept e p h
  · intro px py s p hp hh
    exact consumption_hit px py s p hp hh
  · intro p hr
    rcases (timerOk_reachable p hr).2 with hnil | ⟨t0, _, hpend, _⟩
    · rw [hnil]
      simp
    · rw [hpend]
      simp
  · intro s tid hmem g hg
    unfold fireExpiry at hg
    rw [if_pos hmem] at hg
    rcases List.mem_map.mp hg with ⟨g0, _, rfl⟩
    rfl

/-- Witness for C6 at the concrete `grid2` state `sE`: the power pellet at
(60, 36) is within half a tile of the player, gets consumed, every ghost is
frightened, exactly one expiry is pending afterwards, and the start state is
a reachable state with at most one pending expiry. -/
theorem c6_power_pellet_witness :
    (cellCenter 1 2 ∉ (consumptionPhase sE.pacman.x sE.pacman.y sE).1.powerPellets) ∧
    (∀ g ∈ (consumptionPhase sE.pacman.x sE.pacman.y sE).1.ghosts,
       g.mode = GhostMode.FRIGHTENED) ∧
    (∃ tid, (consumptionPhase sE.pacman.x sE.pacman.y sE).1.frightTimer = some tid ∧
       (consumptionPhase sE.pacman.x sE.pacman.y sE).1.pendingTimers = [tid]) ∧
    startState2.pendingTimers.length ≤ 1 :=
  have h := c6_power_pellet.2.1 sE.pacman.x sE.pacman.y sE (cellCenter 1 2)
    (by with_unfolding_all decide) (by with_unfolding_all decide)
  ⟨h.1, h.2.1,
   h.2.2 ⟨by with_unfolding_all decide, Or.inl (by with_unfolding_all decide)⟩,
   c6_power_pellet.2.2.1 (grid2, startState2) (Reachable.start grid2)⟩

theorem initGhostsAux_modes : ∀ (gs : List Point) (i : ℕ) (g : Ghost),
    g ∈ initGhostsAux i gs → g.mode = GhostMode.SCATTER := by
  intro gs
  induction gs with
  | nil =>
    intro i g h
    simp [initGhostsAux] at h
  | cons st rest ih =>
    intro i g h
    unfold initGhostsAux at h
    rcases List.mem_cons.mp h with h1 | h1
    · rw [h1]
      rfl
    · exact ih (i + 1) g h1

theorem padGhosts_modes (g0 : Point) (l : List Ghost)
    (h : ∀ g ∈ l, g.mode = GhostMode.SCATTER) :
    ∀ g ∈ padGhosts g0 l, g.mode = GhostMode.SCATTER := by
  intro g hg
  unfold padGhosts at hg
  rcases List.mem_append.mp hg with h1 | h1
  · exact h g h1
  · rcases List.mem_map.mp h1 with ⟨k, _, rfl⟩
    rfl

theorem initLevel_ModesOk (grid : Grid) (s : GState) (h : ModesOk s) :
    ModesOk (initLevel grid s) := by
  unfold initLevel
  split
  · exact h
  · intro g hg
    exact Or.inl (padGhosts_modes _ _ (initGhostsAux_modes _ 0) g hg)

theorem resetEffect_ModesOk (grid : Grid) (s : GState) (h : ModesOk s) :
    ModesOk (resetEffect grid s).1 := by
  intro g hg
  exact initLevel_ModesOk grid s h g hg

theorem resetGhosts_modes (grid : Grid) : ∀ (gs : List Ghost) (i : ℕ) (g : Ghost),
    g ∈ resetGhosts grid i gs → g.mode = GhostMode.SCATTER := by
  intro gs
  induction gs with
  | nil =>
    intro i g h
    simp [resetGhosts] at h
  | cons g0 rest ih =>
    intro i g h
    unfold resetGhosts at h
    rcases List.mem_cons.mp h with h1 | h1
    · rw [h1]
    · exact ih (i + 1) g h1

theorem initLevelPosOnly_ModesOk (grid : Grid) (s : GState) :
    ModesOk (initLevelPosOnly grid s) := by
  intro g hg
  exact Or.inl (resetGhosts_modes grid s.ghosts 0 g hg)

theorem modesOk_fields (s1 s2 : GState) (h : s2.ghosts = s1.ghosts)
    (hm : ModesOk s1) : ModesOk s2 := by
  unfold ModesOk at *
  rw [h]
  exact hm

theorem powerStep_ModesOk (px py : ℚ) (acc : GState × List Point × Bool) (p : Point)
    (h : ModesOk acc.1) : ModesOk (powerStep px py acc p).1 := by
  obtain ⟨s, kept, e⟩ := acc
  by_cases hh : hypotLt p.x p.y px py (TILE_SIZE / 2) = true
  · rw [powerStep_hit_eq px py s kept e p hh]
    intro g hg
    exact Or.inr (map_mode_frightened s.ghosts g hg)
  · rw [powerStep_miss_eq px py s kept e p hh]
    exact h

theorem powerFold_ModesOk (px py : ℚ) (l : List Point) :
    ∀ acc : GState × List Point × Bool,
      ModesOk acc.1 → ModesOk ((l.foldl (powerStep px py) acc).1) := by
  induction l with
  | nil => intro acc h; exact h
  | cons p ps ih =>
    intro acc h
    rw [List.foldl_cons]
    exact ih _ (powerStep_ModesOk px py acc p h)

theorem consumption_ModesOk (px py : ℚ) (s : GState) (h : ModesOk s) :
    ModesOk (consumptionPhase px py s).1 :=
  modesOk_fields ((s.powerPellets.foldl (powerStep px py) (consInit px py s)).1) _ rfl
    (powerFold_ModesOk px py s.powerPellets (consInit px py s)
      (modesOk_fields s _ rfl h))

theorem ghostLoopAux_ModesOk (grid : Grid) (px py : ℚ) :
    ∀ (fuel i : ℕ) (s : GState) (evs : List Ev),
      ModesOk s → ModesOk (ghostLoopAux grid px py i fuel s evs).1 := by
  intro fuel
  induction fuel with
  | zero => intro i s evs h; exact h
  | succ n ih =>
    intro i s evs h
    cases hg : s.ghosts.get? i with
    | none =>
      have he : ghostLoopAux grid px py i (n + 1) s evs = (s, evs) := by
        simp only [ghostLoopAux, hg]
      rw [he]
      exact h
    | some g =>
      simp only [ghostLoopAux, hg]
      split_ifs with h1 h2 h3 h4
      · apply ih
        intro g2 hg2
        rcases List.mem_or_eq_of_mem_set hg2 with h5 | h5
        · exact h g2 h5
        · rw [h5]
          exact Or.inl rfl
      · exact ih _ _ _ h
      · exact ih _ _ _ h
      · exact ih _ _ _ (initLevelPosOnly_ModesOk _ _)
      · exact ih _ _ _ h

theorem checkCollisions_ModesOk (grid : Grid) (s : GState) (h : ModesOk s) :
    ModesOk (checkCollisions grid s).1 := by
  simp only [checkCollisions]
  split
  · exact consumption_ModesOk _ _ _ h
  · exact ghostLoopAux_ModesOk grid _ _ _ _ _ _ (consumption_ModesOk _ _ _ h)

theorem updateGhostsAux_modes (grid : Grid) (pac : Entity) (rnd : ℕ → Bool × Bool × ℕ) :
    ∀ (gs : List Ghost) (i : ℕ) (g2 : Ghost), g2 ∈ updateGhostsAux grid pac rnd i gs →
      ∃ g ∈ gs, g2.mode = g.mode := by
  intro gs
  induction gs with
  | nil =>
    intro i g2 h
    simp [updateGhostsAux] at h
  | cons g gs ih =>
    intro i g2 h
    unfold updateGhostsAux at h
    rcases List.mem_cons.mp h with h1 | h1
    · exact ⟨g, List.mem_cons_self g gs, by rw [h1]; rfl⟩
    · obtain ⟨g3, hg3, he⟩ := ih (i + 1) g2 h1
      exact ⟨g3, List.mem_cons_of_mem g hg3, he⟩

theorem tick_ModesOk (grid : Grid) (rnd : ℕ → Bool × Bool × ℕ) (s : GState)
    (h : ModesOk s) : ModesOk (tick grid rnd s).1 := by
  unfold tick
  dsimp only
  apply checkCollisions_ModesOk
  intro g2 hg2
  obtain ⟨g, hg, he⟩ := updateGhostsAux_modes grid _ rnd s.ghosts 0 g2 hg2
  rw [he]
  exact h g hg

theorem fireExpiry_ModesOk (s : GState) (tid : ℕ) (h : ModesOk s) :
    ModesOk (fireExpiry s tid) := by
  unfold fireExpiry
  split
  · intro g hg
    rcases List.mem_map.mp hg with ⟨g0, _, rfl⟩
    exact Or.inl rfl
  · exact h

theorem setNextDir_ModesOk (d : Direction) (s : GState) (h : ModesOk s) :
    ModesOk (setNextDir d s) := by
  unfold setNextDir
  split
  · exact h
  · exact modesOk_fields s _ rfl h

/-- C10: in every state reachable from a game start by grid loads and round
resets, Playing ticks (under any random draws), frighten-timer expiries and
player inputs, every ghost's mode is Scatter or Frightened: no core
operation ever assigns Chase or Eaten. -/
theorem c10_modes : ∀ p : Grid × GState, Reachable p → ModesOk p.2 := by
  intro p h
  induction h with
  | start grid =>
    refine resetEffect_ModesOk grid initialState ?_
    intro g hg
    exact absurd hg (List.not_mem_nil g)
  | next hp hstep ih =>
    cases hstep with
    | load grid2 => exact resetEffect_ModesOk _ _ ih
    | tickStep rnd => exact tick_ModesOk _ _ _ ih
    | fire tid => exact fireExpiry_ModesOk _ _ ih
    | input d => exact setNextDir_ModesOk _ _ ih

/-- Witness for C10: the start state on `grid1` is reachable and all of its
ghosts are in Scatter or Frightened mode. -/
theorem c10_modes_witness : ModesOk startState1 :=
  c10_modes (grid1, startState1) (Reachable.start grid1)

end Pac
